import Mathlib

/-!
Shallow embedding of the MECE audience-segmentation engine
(`mece.py`, class `MECESegmentationEngine`) and proofs about it.

Modelling conventions:
* a pandas DataFrame of user records is a `List Row`;
* a boolean mask aligned to the frame is a predicate `Row → Bool`,
  `df[mask]` is `List.filter`;
* timestamps are integers counting days; `pd.to_datetime` converts a
  raw (string-typed) date cell into a parsed datetime cell carrying the
  same instant, which `DateVal` models with two constructors;
* numeric columns are exact rationals (`ℚ`);
* `datetime.now()` is passed explicitly as a parameter `now`;
* the per-segment draws of `np.random.normal(0.1, 0.05)` in scoring are
  an explicit stream `noise : ℕ → ℚ` indexed by draw order;
* `print` calls are dropped except where their content is the observable
  behaviour being specified: the warning/error messages of
  `_validate_mece` are modelled as fields of a returned report.
-/

namespace MeceSeg

/-- A date cell: either still the raw string form (carrying the instant it
denotes, in days) or the parsed datetime form.  `pd.to_datetime` maps the
former to the latter. -/
inductive DateVal where
  | raw (t : ℤ)
  | parsed (t : ℤ)
deriving DecidableEq

/-- The instant (in days) a date cell denotes, independent of representation. -/
def DateVal.instant : DateVal → ℤ
  | .raw t => t
  | .parsed t => t

/-- `pd.to_datetime` on one cell: parses a raw date, keeps a parsed one. -/
def toDatetime : DateVal → DateVal
  | .raw t => .parsed t
  | .parsed t => .parsed t

/-- One user record (one row of the input DataFrame). -/
structure Row where
  user_id : String
  cart_abandoned_date : DateVal
  last_order_date : Option DateVal
  avg_order_value : ℚ
  sessions_last_30d : ℚ
  num_cart_items : ℚ
  engagement_score : ℚ
  profitability_score : ℚ
deriving DecidableEq

/-- Insert into an ascending-sorted list (used for quantile computation). -/
def insertAsc (x : ℚ) : List ℚ → List ℚ
  | [] => [x]
  | y :: ys => if x ≤ y then x :: y :: ys else y :: insertAsc x ys

/-- Ascending insertion sort on rationals. -/
def sortAsc : List ℚ → List ℚ
  | [] => []
  | x :: xs => insertAsc x (sortAsc xs)

/-- Floor of a non-negative rational, as a natural number. -/
def ratFloorNat (x : ℚ) : ℕ := (x.num / (x.den : ℤ)).toNat

/-- `Series.quantile(q)` with pandas' default linear interpolation:
on the sorted values `s` of length `n`, the value at fractional position
`h = q·(n−1)` is `s[⌊h⌋] + (h − ⌊h⌋)·(s[⌊h⌋+1] − s[⌊h⌋])`.
On an empty series the result is unused by any caller (pandas gives NaN);
we return 0. -/
def quantile (xs : List ℚ) (q : ℚ) : ℚ :=
  let s := sortAsc xs
  let n := s.length
  if n = 0 then 0
  else
    let h : ℚ := q * ((n : ℚ) - 1)
    let j : ℕ := ratFloorNat h
    let g : ℚ := h - (j : ℚ)
    let a := s.getD j 0
    let b := s.getD (j + 1) a
    a + g * (b - a)

/-- `aov_high = df['avg_order_value'].quantile(0.75)`. -/
def aov_high (df : List Row) : ℚ := quantile (df.map (·.avg_order_value)) 0.75

/-- `aov_medium = df['avg_order_value'].quantile(0.40)`. -/
def aov_medium (df : List Row) : ℚ := quantile (df.map (·.avg_order_value)) 0.40

/-- `engagement_high = df['engagement_score'].quantile(0.70)`. -/
def engagement_high (df : List Row) : ℚ := quantile (df.map (·.engagement_score)) 0.70

/-- `engagement_medium = df['engagement_score'].quantile(0.40)`. -/
def engagement_medium (df : List Row) : ℚ := quantile (df.map (·.engagement_score)) 0.40

/-- `profitability_high = df['profitability_score'].quantile(0.70)`. -/
def profitability_high (df : List Row) : ℚ := quantile (df.map (·.profitability_score)) 0.70

/-- Rule 1 mask: `df['avg_order_value'] >= aov_high`. -/
def s1_mask (df : List Row) (r : Row) : Bool :=
  decide (aov_high df ≤ r.avg_order_value)

/-- Size of rule 1's matched subset, `len(df[s1_mask])`. -/
def s1_len (df : List Row) : ℕ := (df.filter (s1_mask df)).length

/-- `remaining_mask = ~s1_mask` (executed unconditionally in the source,
whether or not segment 1 was materialized). -/
def remaining1 (df : List Row) (r : Row) : Bool := ! s1_mask df r

/-- Rule 2 mask: `remaining & (AOV >= aov_medium) & (engagement >= engagement_high)`. -/
def s2_mask (df : List Row) (r : Row) : Bool :=
  remaining1 df r && decide (aov_medium df ≤ r.avg_order_value)
    && decide (engagement_high df ≤ r.engagement_score)

/-- Size of rule 2's matched subset. -/
def s2_len (df : List Row) : ℕ := (df.filter (s2_mask df)).length

/-- Remaining set after rule 2: rule 2's members are subtracted only when
segment 2 was materialized (`len >= min_segment_size`). -/
def remaining2 (df : List Row) (m : ℕ) (r : Row) : Bool :=
  if m ≤ s2_len df then remaining1 df r && ! s2_mask df r else remaining1 df r

/-- Rule 3 mask: `remaining & (AOV >= aov_medium) & (engagement >= engagement_medium)
& (profitability >= profitability_high)`. -/
def s3_mask (df : List Row) (m : ℕ) (r : Row) : Bool :=
  remaining2 df m r && decide (aov_medium df ≤ r.avg_order_value)
    && decide (engagement_medium df ≤ r.engagement_score)
    && decide (profitability_high df ≤ r.profitability_score)

/-- Size of rule 3's matched subset. -/
def s3_len (df : List Row) (m : ℕ) : ℕ := (df.filter (s3_mask df m)).length

/-- Remaining set after rule 3. -/
def remaining3 (df : List Row) (m : ℕ) (r : Row) : Bool :=
  if m ≤ s3_len df m then remaining2 df m r && ! s3_mask df m r else remaining2 df m r

/-- Rule 4 mask: `remaining & (engagement >= engagement_high)`. -/
def s4_mask (df : List Row) (m : ℕ) (r : Row) : Bool :=
  remaining3 df m r && decide (engagement_high df ≤ r.engagement_score)

/-- Size of rule 4's matched subset. -/
def s4_len (df : List Row) (m : ℕ) : ℕ := (df.filter (s4_mask df m)).length

/-- Remaining set after rule 4. -/
def remaining4 (df : List Row) (m : ℕ) (r : Row) : Bool :=
  if m ≤ s4_len df m then remaining3 df m r && ! s4_mask df m r else remaining3 df m r

/-- Rule 5 mask: `remaining & last_order_date.notna()
& (to_datetime(last_order_date) >= now − 30 days)`. -/
def s5_mask (df : List Row) (m : ℕ) (now : ℤ) (r : Row) : Bool :=
  remaining4 df m r &&
    (match r.last_order_date with
     | none => false
     | some d => decide (now - 30 ≤ (toDatetime d).instant))

/-- Size of rule 5's matched subset. -/
def s5_len (df : List Row) (m : ℕ) (now : ℤ) : ℕ :=
  (df.filter (s5_mask df m now)).length

/-- Remaining set after rule 5; the catch-all's mask (`else_mask`). -/
def remaining5 (df : List Row) (m : ℕ) (now : ℤ) (r : Row) : Bool :=
  if m ≤ s5_len df m now then remaining4 df m r && ! s5_mask df m now r
  else remaining4 df m r

/-- One materialized segment (the dict appended to `segments`).
The numeric threshold values interpolated into the source's `rules`
strings are presentational and elided; the `rules` text keeps the
descriptive part. -/
structure Segment where
  name : String
  rules : String
  mask : Row → Bool
  size : ℕ
  priority : ℕ

/-- `create_mece_segments(df)`: the ordered rule pipeline.  Each explicit
rule is materialized only when its matched subset reaches
`min_segment_size`; the catch-all `Other_Bucket` is appended
unconditionally.  Mirrors the source exactly, including that
`remaining_mask = ~s1_mask` is assigned outside rule 1's size check while
rules 2–5 subtract their members only inside theirs. -/
def create_mece_segments (df : List Row) (min_segment_size : ℕ) (now : ℤ) :
    List Segment :=
  (if min_segment_size ≤ s1_len df then
    [⟨"High_AOV_Premium", "AOV >= aov_high", s1_mask df, s1_len df, 1⟩]
   else []) ++
  (if min_segment_size ≤ s2_len df then
    [⟨"Med_AOV_High_Engagement", "aov_medium <= AOV < aov_high & Engagement >= engagement_high",
      s2_mask df, s2_len df, 2⟩]
   else []) ++
  (if min_segment_size ≤ s3_len df min_segment_size then
    [⟨"Med_AOV_Med_Eng_High_Prof",
      "aov_medium <= AOV < aov_high & engagement_medium <= Engagement < engagement_high & Profitability >= profitability_high",
      s3_mask df min_segment_size, s3_len df min_segment_size, 3⟩]
   else []) ++
  (if min_segment_size ≤ s4_len df min_segment_size then
    [⟨"Low_AOV_High_Engagement", "AOV < aov_medium & Engagement >= engagement_high",
      s4_mask df min_segment_size, s4_len df min_segment_size, 4⟩]
   else []) ++
  (if min_segment_size ≤ s5_len df min_segment_size now then
    [⟨"Recent_Customers", "Last order within 30 days & Other conditions",
      s5_mask df min_segment_size now, s5_len df min_segment_size now, 5⟩]
   else []) ++
  [⟨"Other_Bucket", "All other users (ELSE condition)",
    remaining5 df min_segment_size now,
    (df.filter (remaining5 df min_segment_size now)).length, 999⟩]

/-- `set(df[segment['mask']]['user_id'])` as a list of ids. -/
def memberIds (df : List Row) (mask : Row → Bool) : List String :=
  (df.filter mask).map (·.user_id)

/-- `set(df[segment['mask']]['user_id'])` as a finite set. -/
def segUsers (df : List Row) (s : Segment) : Finset String :=
  (memberIds df s.mask).toFinset

/-- Union of all segments' member-id sets. -/
def unionUsers (df : List Row) (segs : List Segment) : Finset String :=
  segs.foldr (fun s acc => segUsers df s ∪ acc) ∅

/-- The observable outcome of `_validate_mece`: which overlap WARNING
lines were printed (by segment name), the running size total, the
accumulated `all_assigned_users` set, and whether the exhaustiveness
check passed (`len(all_assigned_users) == len(df)`), which decides
between the ERROR message and the success message.  Nothing is raised in
the source; the method only prints and returns `None`. -/
structure MeceReport where
  warnings : List String
  total_assigned : ℕ
  assigned : Finset String
  exhaustive_ok : Bool
deriving DecidableEq

/-- The loop of `_validate_mece`, accumulating over the segment list. -/
def validateAux (df : List Row) :
    List Segment → Finset String → ℕ → List String → MeceReport
  | [], acc, tot, ws =>
    ⟨ws.reverse, tot, acc, decide (acc.card = df.length)⟩
  | s :: rest, acc, tot, ws =>
    let su := segUsers df s
    validateAux df rest (acc ∪ su) (tot + s.size)
      (if acc ∩ su = ∅ then ws else s.name :: ws)

/-- `_validate_mece(df, segments)`. -/
def validate_mece (df : List Row) (segs : List Segment) : MeceReport :=
  validateAux df segs ∅ 0 []

/-- `create_mece_segments` as the source runs it: build the segments,
then call `_validate_mece` (whose report is print-only) and return the
segments regardless of the report. -/
def create_and_validate (df : List Row) (m : ℕ) (now : ℤ) :
    List Segment × MeceReport :=
  let segs := create_mece_segments df m now
  (segs, validate_mece df segs)

/-- `define_universe(df)`: parses the `cart_abandoned_date` column in
place on the caller's frame (an observable mutation of the input), then
filters to abandonments within the trailing 7 days.  Returns the
caller-visible post-state of `df` together with the universe. -/
def define_universe (df : List Row) (now : ℤ) : List Row × List Row :=
  let dfConv := df.map fun r =>
    { r with cart_abandoned_date := toDatetime r.cart_abandoned_date }
  let cutoff := now - 7
  (dfConv, dfConv.filter fun r => decide (cutoff ≤ r.cart_abandoned_date.instant))

/-- `Series.mean()`: sum divided by length (callers guard non-emptiness). -/
def mean (xs : List ℚ) : ℚ := xs.sum / (xs.length : ℚ)

/-- `avg_engagement = segment_data['engagement_score'].mean()`. -/
def avgEngagement (rows : List Row) : ℚ := mean (rows.map (·.engagement_score))

/-- `avg_sessions = segment_data['sessions_last_30d'].mean()`. -/
def avgSessions (rows : List Row) : ℚ := mean (rows.map (·.sessions_last_30d))

/-- `recency_factor = min(avg_sessions / 10, 1.0)`. -/
def recencyFactor (rows : List Row) : ℚ := min (avgSessions rows / 10) 1.0

/-- `conversion_potential = (avg_engagement * 0.7) + (recency_factor * 0.3)`. -/
def conversionPotential (rows : List Row) : ℚ :=
  avgEngagement rows * 0.7 + recencyFactor rows * 0.3

/-- `avg_profitability = segment_data['profitability_score'].mean()`. -/
def avgProfitability (rows : List Row) : ℚ := mean (rows.map (·.profitability_score))

/-- `avg_aov = segment_data['avg_order_value'].mean()`. -/
def avgAov (rows : List Row) : ℚ := mean (rows.map (·.avg_order_value))

/-- `profitability = (avg_profitability * 0.8) + (min(avg_aov / 1000, 1.0) * 0.2)`. -/
def profitabilityDim (rows : List Row) : ℚ :=
  avgProfitability rows * 0.8 + min (avgAov rows / 1000) 1.0 * 0.2

/-- Size score: `size/5000` up to the optimal size 5000, then
`max(0.5, 1 − (size − 5000)/20000)`. -/
def sizeScore (size : ℕ) : ℚ :=
  if size ≤ 5000 then (size : ℚ) / 5000
  else max 0.5 (1 - ((size : ℚ) - 5000) / 20000)

/-- `base_lift = (avg_engagement * 0.4) + (min(avg_aov / 2000, 1.0) * 0.3)`. -/
def baseLift (rows : List Row) : ℚ :=
  avgEngagement rows * 0.4 + min (avgAov rows / 2000) 1.0 * 0.3

/-- `lift_vs_control = min(base_lift + np.random.normal(0.1, 0.05), 1.0)`;
the normal draw is the explicit parameter `noise`. -/
def liftVsControl (rows : List Row) (noise : ℚ) : ℚ :=
  min (baseLift rows + noise) 1.0

/-- `pat` occurs as a contiguous sublist of `l` (Python's `in` on strings). -/
def charListHas (pat : List Char) : List Char → Bool
  | [] => List.isPrefixOf pat []
  | c :: cs => List.isPrefixOf pat (c :: cs) || charListHas pat cs

/-- Python `pat in s` for strings. -/
def strHas (pat s : String) : Bool := charListHas pat.toList s.toList

/-- The static strategic-fit table, dispatched on the segment name exactly
as the source's if/elif chain (including the substring test
`'High_Engagement' in segment['name']`). -/
def strategicFit (name : String) : ℚ :=
  if name = "High_AOV_Premium" then 0.95
  else if name = "Med_AOV_High_Engagement" then 0.85
  else if strHas "High_Engagement" name then 0.75
  else if name = "Recent_Customers" then 0.70
  else 0.50

/-- `overall_score`, the weighted combination computed from the unrounded
sub-scores. -/
def overallScore (conv prof lift fit size_sc : ℚ) : ℚ :=
  conv * 0.25 + prof * 0.25 + lift * 0.20 + fit * 0.20 + size_sc * 0.10

/-- Round half to even (Python's `round` tie-breaking), on an exact rational. -/
def roundHalfEven (x : ℚ) : ℤ :=
  let f : ℤ := Int.fdiv x.num (x.den : ℤ)
  let r : ℚ := x - (f : ℚ)
  if r < 1/2 then f
  else if 1/2 < r then f + 1
  else if f % 2 = 0 then f else f + 1

/-- Python `round(x, 3)` idealized over exact rationals. -/
def round3 (x : ℚ) : ℚ := (roundHalfEven (x * 1000) : ℚ) / 1000

/-- Python `round(x, 2)` idealized over exact rationals. -/
def round2 (x : ℚ) : ℚ := (roundHalfEven (x * 100) : ℚ) / 100

/-- One scored segment: the dict built per non-empty segment, with the
rounding the source applies when storing each value. -/
structure ScoredSegment where
  segment_name : String
  rules_applied : String
  size : ℕ
  conversion_potential : ℚ
  profitability : ℚ
  lift_vs_control : ℚ
  strategic_fit : ℚ
  size_score : ℚ
  overall_score : ℚ
  valid : Bool
  avg_aov : ℚ
  avg_engagement : ℚ
  avg_profitability : ℚ
deriving DecidableEq

/-- The body of the scoring loop for one non-empty segment, given the
normal draw for this iteration. -/
def scoreOne (df : List Row) (min_segment_size max_segment_size : ℕ)
    (seg : Segment) (noise : ℚ) : ScoredSegment :=
  let rows := df.filter seg.mask
  let conv := conversionPotential rows
  let prof := profitabilityDim rows
  let size := rows.length
  let size_sc := sizeScore size
  let lift := liftVsControl rows noise
  let fit := strategicFit seg.name
  let overall := overallScore conv prof lift fit size_sc
  { segment_name := seg.name
    rules_applied := seg.rules
    size := size
    conversion_potential := round3 conv
    profitability := round3 prof
    lift_vs_control := round3 lift
    strategic_fit := round3 fit
    size_score := round3 size_sc
    overall_score := round3 overall
    valid := decide (min_segment_size ≤ size ∧ size ≤ max_segment_size)
    avg_aov := round2 (avgAov rows)
    avg_engagement := round3 (avgEngagement rows)
    avg_profitability := round3 (avgProfitability rows) }

/-- The scoring loop: empty segments are skipped (`continue`) without
consuming a normal draw; each scored segment consumes the next draw. -/
def scoreLoop (df : List Row) (min_segment_size max_segment_size : ℕ)
    (noise : ℕ → ℚ) : List Segment → ℕ → List ScoredSegment
  | [], _ => []
  | seg :: rest, i =>
    if (df.filter seg.mask).length = 0 then
      scoreLoop df min_segment_size max_segment_size noise rest i
    else
      scoreOne df min_segment_size max_segment_size seg (noise i) ::
        scoreLoop df min_segment_size max_segment_size noise rest (i + 1)

/-- Stable insertion into a list sorted descending by `overall_score`
(models the stability of Python's `list.sort(..., reverse=True)`). -/
def insertByScore (x : ScoredSegment) : List ScoredSegment → List ScoredSegment
  | [] => [x]
  | y :: ys =>
    if y.overall_score ≤ x.overall_score then x :: y :: ys
    else y :: insertByScore x ys

/-- Stable sort, descending by `overall_score`. -/
def sortByScore : List ScoredSegment → List ScoredSegment
  | [] => []
  | x :: xs => insertByScore x (sortByScore xs)

/-- `compute_segment_scores(df, segments)`: score every non-empty segment,
then sort descending by overall score. -/
def compute_segment_scores (df : List Row) (segs : List Segment)
    (min_segment_size max_segment_size : ℕ) (noise : ℕ → ℚ) :
    List ScoredSegment :=
  sortByScore (scoreLoop df min_segment_size max_segment_size noise segs 0)

/-- `run_segmentation(df)`: universe definition, partitioning (with its
print-only validation), scoring.  Returns the scored segments and the
universe. -/
def run_segmentation (df : List Row) (min_segment_size max_segment_size : ℕ)
    (now : ℤ) (noise : ℕ → ℚ) : List ScoredSegment × List Row :=
  let u := (define_universe df now).2
  let segs := (create_and_validate u min_segment_size now).1
  (compute_segment_scores u segs min_segment_size max_segment_size noise, u)

/-- Concrete one-row universe used to exercise the partitioner: rule 1
(`AOV >= aov_high`) matches this row (the 0.75-quantile of a singleton
column is its own value). -/
def r0 : Row :=
  { user_id := "u1", cart_abandoned_date := .parsed 0, last_order_date := none
    avg_order_value := 100, sessions_last_30d := 5, num_cart_items := 1
    engagement_score := 0, profitability_score := 0 }

/-- Like `r0` but with the abandonment date still in raw (string) form, to
observe `define_universe`'s in-place conversion of the caller's column. -/
def r8 : Row :=
  { user_id := "u1", cart_abandoned_date := .raw 0, last_order_date := none
    avg_order_value := 100, sessions_last_30d := 5, num_cart_items := 1
    engagement_score := 0, profitability_score := 0 }

/-- The documented input domains for scoring: AOV and session count
non-negative, engagement and profitability in [0,1]. -/
def rowDomOk (r : Row) : Prop :=
  0 ≤ r.avg_order_value ∧ (0 ≤ r.engagement_score ∧ r.engagement_score ≤ 1) ∧
    (0 ≤ r.profitability_score ∧ r.profitability_score ≤ 1) ∧
    0 ≤ r.sessions_last_30d

/-- All fields of a record except the abandonment date (used to state that
`define_universe` changes nothing else). -/
def stripDate (r : Row) : String × Option DateVal × ℚ × ℚ × ℚ × ℚ × ℚ :=
  (r.user_id, r.last_order_date, r.avg_order_value, r.sessions_last_30d,
    r.num_cart_items, r.engagement_score, r.profitability_score)

/-- The invariant traced by `_validate_mece`'s overlap loop: each segment's
member set is disjoint from the union of its predecessors' (starting from
the accumulator `acc`). -/
def ChainOk (df : List Row) : Finset String → List Segment → Prop
  | _, [] => True
  | acc, s :: rest => acc ∩ segUsers df s = ∅ ∧ ChainOk df (acc ∪ segUsers df s) rest

/-- A segment whose mask matches every row, for exercising the scorer. -/
def segX : Segment := ⟨"X", "rule", fun _ => true, 1, 1⟩

/-- A zero noise stream for deterministic scoring runs. -/
def nzf : ℕ → ℚ := fun _ => 0

/-- The single scored segment the scorer produces on `[r0]` with `segX`. -/
def c9s : ScoredSegment := scoreOne [r0] 0 10 segX (nzf 0)

/-- The rule 1 segment materialized on `[r0]` when `min_segment_size = 1`. -/
def c10seg : Segment := ⟨"High_AOV_Premium", "AOV >= aov_high", s1_mask [r0], 1, 1⟩


/-! ## Evaluation lemmas on the concrete one-row universe `[r0]` -/

/-- On a singleton universe the 0.75 AOV quantile is the row's own AOV. -/
theorem aov_high_r0 : aov_high [r0] = 100 := by
  simp [aov_high, quantile, sortAsc, insertAsc, ratFloorNat, r0]

/-- Rule 1 matches `r0`. -/
theorem s1_mask_r0 : s1_mask [r0] r0 = true := by
  simp only [s1_mask, decide_eq_true_eq, aov_high_r0]
  norm_num [r0]

/-- `remaining_mask = ~s1_mask` drops `r0` immediately after rule 1,
regardless of whether segment 1 was materialized. -/
theorem remaining1_r0 : remaining1 [r0] r0 = false := by
  simp [remaining1, s1_mask_r0]

/-- Rule 1's matched subset on `[r0]` has exactly one row. -/
theorem s1_len_r0 : s1_len [r0] = 1 := by
  simp [s1_len, List.filter, s1_mask_r0]

theorem s2_mask_r0 : s2_mask [r0] r0 = false := by
  simp [s2_mask, remaining1_r0]

theorem s2_len_r0 : s2_len [r0] = 0 := by
  simp [s2_len, List.filter, s2_mask_r0]

theorem remaining2_r0 : ∀ m, remaining2 [r0] m r0 = false := by
  intro m
  simp [remaining2, remaining1_r0]

theorem s3_mask_r0 : ∀ m, s3_mask [r0] m r0 = false := by
  intro m
  simp [s3_mask, remaining2_r0]

theorem s3_len_r0 : ∀ m, s3_len [r0] m = 0 := by
  intro m
  simp [s3_len, List.filter, s3_mask_r0]

theorem remaining3_r0 : ∀ m, remaining3 [r0] m r0 = false := by
  intro m
  simp [remaining3, remaining2_r0, s3_mask_r0]

theorem s4_mask_r0 : ∀ m, s4_mask [r0] m r0 = false := by
  intro m
  simp [s4_mask, remaining3_r0]

theorem s4_len_r0 : ∀ m, s4_len [r0] m = 0 := by
  intro m
  simp [s4_len, List.filter, s4_mask_r0]

theorem remaining4_r0 : ∀ m, remaining4 [r0] m r0 = false := by
  intro m
  simp [remaining4, remaining3_r0, s4_mask_r0]

theorem s5_mask_r0 : ∀ m now, s5_mask [r0] m now r0 = false := by
  intro m now
  simp [s5_mask, remaining4_r0]

theorem s5_len_r0 : ∀ m now, s5_len [r0] m now = 0 := by
  intro m now
  simp [s5_len, List.filter, s5_mask_r0]

theorem remaining5_r0 : ∀ m now, remaining5 [r0] m now r0 = false := by
  intro m now
  simp [remaining5, remaining4_r0, s5_mask_r0]

/-- With `min_segment_size = 500`, the partition of `[r0]` is a single
catch-all segment with zero members: rule 1's matched row was removed
from the remaining set despite rule 1 being skipped. -/
theorem create_r0_eq : create_mece_segments [r0] 500 0 =
    [⟨"Other_Bucket", "All other users (ELSE condition)",
      remaining5 [r0] 500 0, 0, 999⟩] := by
  simp [create_mece_segments, s1_len_r0, s2_len_r0, s3_len_r0, s4_len_r0,
    s5_len_r0, List.filter, remaining5_r0]

/-- Projection of `create_r0_eq` to names and sizes. -/
theorem create_r0_names : (create_mece_segments [r0] 500 0).map
    (fun s => (s.name, s.size)) = [("Other_Bucket", 0)] := by
  rw [create_r0_eq]
  rfl

/-- The union of all segment member sets on `[r0]` is empty. -/
theorem union_r0_empty : unionUsers [r0] (create_mece_segments [r0] 500 0) = ∅ := by
  rw [create_r0_eq]
  simp [unionUsers, segUsers, memberIds, List.filter, remaining5_r0]

/-- With `min_segment_size = 1`, rule 1 is materialized on `[r0]` and the
catch-all is empty. -/
theorem create_r0_one : create_mece_segments [r0] 1 0 =
    [⟨"High_AOV_Premium", "AOV >= aov_high", s1_mask [r0], 1, 1⟩,
     ⟨"Other_Bucket", "All other users (ELSE condition)",
       remaining5 [r0] 1 0, 0, 999⟩] := by
  simp [create_mece_segments, s1_len_r0, s2_len_r0, s3_len_r0, s4_len_r0,
    s5_len_r0, List.filter, remaining5_r0]

theorem c10seg_mem : c10seg ∈ create_mece_segments [r0] 1 0 := by
  rw [create_r0_one]
  exact List.mem_cons_self _ _

/-- Scoring `[r0]` against the all-matching segment produces exactly one
scored segment. -/
theorem compute_r0_eq : compute_segment_scores [r0] [segX] 0 10 nzf = [c9s] := by
  simp [compute_segment_scores, scoreLoop, sortByScore, insertByScore, segX,
    c9s, List.filter]

theorem c9s_mem : c9s ∈ compute_segment_scores [r0] [segX] 0 10 nzf := by
  rw [compute_r0_eq]
  exact List.mem_cons_self _ _

/-- The documented domains hold for the members of `[r0]`. -/
theorem r0_dom : ∀ r ∈ [r0], rowDomOk r := by
  intro r hr
  rw [List.mem_singleton] at hr
  subst hr
  refine ⟨by norm_num [r0], ⟨by norm_num [r0], by norm_num [r0]⟩,
    ⟨by norm_num [r0], by norm_num [r0]⟩, by norm_num [r0]⟩

/-- A noise draw of −1 sends `lift_vs_control` below zero on `[r0]`. -/
theorem lift_r0_neg : liftVsControl [r0] (-1) < 0 := by
  simp [liftVsControl, baseLift, avgEngagement, avgAov, mean, r0]
  norm_num

/-! ## Structural lemmas -/

theorem mem_if_singleton {α : Type} {c : Prop} [Decidable c] {x a : α}
    (h : a ∈ (if c then [x] else [])) : c ∧ a = x := by
  by_cases hc : c
  · simp [hc] at h
    exact ⟨hc, h⟩
  · simp [hc] at h

/-- Every element of the scoring loop's output is `scoreOne` applied to a
listed segment with a non-empty matched subset. -/
theorem scoreLoop_mem {df : List Row} {mn mx : ℕ} {noise : ℕ → ℚ}
    {segs : List Segment} {i : ℕ} {s : ScoredSegment}
    (h : s ∈ scoreLoop df mn mx noise segs i) :
    ∃ seg ∈ segs, ∃ j, s = scoreOne df mn mx seg (noise j) ∧
      (df.filter seg.mask).length ≠ 0 := by
  induction segs generalizing i with
  | nil => simp [scoreLoop] at h
  | cons a rest ih =>
    rw [scoreLoop] at h
    by_cases hz : (df.filter a.mask).length = 0
    · rw [if_pos hz] at h
      obtain ⟨seg, hseg, j, hj⟩ := ih h
      exact ⟨seg, List.mem_cons_of_mem _ hseg, j, hj⟩
    · rw [if_neg hz] at h
      rcases List.mem_cons.mp h with h' | h'
      · exact ⟨a, List.mem_cons_self _ _, i, h', hz⟩
      · obtain ⟨seg, hseg, j, hj⟩ := ih h'
        exact ⟨seg, List.mem_cons_of_mem _ hseg, j, hj⟩

theorem mem_insertByScore {x a : ScoredSegment} {l : List ScoredSegment} :
    a ∈ insertByScore x l ↔ a = x ∨ a ∈ l := by
  induction l with
  | nil => simp [insertByScore]
  | cons y ys ih =>
    rw [insertByScore]
    by_cases hc : y.overall_score ≤ x.overall_score
    · simp [hc]
    · simp [hc, ih]
      tauto

/-- The final sort neither adds nor removes scored segments. -/
theorem mem_sortByScore {a : ScoredSegment} {l : List ScoredSegment} :
    a ∈ sortByScore l ↔ a ∈ l := by
  induction l with
  | nil => simp [sortByScore]
  | cons y ys ih =>
    rw [sortByScore]
    simp [mem_insertByScore, ih]

/-! ## Mean and sub-score bounds -/

theorem mean_nonneg {xs : List ℚ} (h : ∀ x ∈ xs, 0 ≤ x) : 0 ≤ mean xs := by
  unfold mean
  exact div_nonneg (List.sum_nonneg h) (by positivity)

theorem mean_le_one {xs : List ℚ} (hne : xs ≠ []) (h : ∀ x ∈ xs, x ≤ 1) :
    mean xs ≤ 1 := by
  unfold mean
  have hl : 0 < (xs.length : ℚ) := by
    exact_mod_cast List.length_pos.mpr hne
  rw [div_le_one hl]
  calc xs.sum ≤ xs.length • (1 : ℚ) := List.sum_le_card_nsmul xs 1 h
    _ = (xs.length : ℚ) := by simp

theorem conversion_bounds {rows : List Row} (hne : rows ≠ [])
    (heng : ∀ r ∈ rows, 0 ≤ r.engagement_score ∧ r.engagement_score ≤ 1)
    (hses : ∀ r ∈ rows, 0 ≤ r.sessions_last_30d) :
    0 ≤ conversionPotential rows ∧ conversionPotential rows ≤ 1 := by
  have hmapne : rows.map (·.engagement_score) ≠ [] := by
    simpa using hne
  have h1 : 0 ≤ avgEngagement rows := by
    apply mean_nonneg
    intro x hx
    obtain ⟨r, hr, rfl⟩ := List.mem_map.mp hx
    exact (heng r hr).1
  have h2 : avgEngagement rows ≤ 1 := by
    apply mean_le_one hmapne
    intro x hx
    obtain ⟨r, hr, rfl⟩ := List.mem_map.mp hx
    exact (heng r hr).2
  have h3 : 0 ≤ avgSessions rows := by
    apply mean_nonneg
    intro x hx
    obtain ⟨r, hr, rfl⟩ := List.mem_map.mp hx
    exact hses r hr
  have h4 : 0 ≤ recencyFactor rows := by
    apply le_min (by positivity)
    norm_num
  have h5 : recencyFactor rows ≤ 1 := by
    unfold recencyFactor
    calc min (avgSessions rows / 10) 1.0 ≤ 1.0 := min_le_right _ _
      _ ≤ 1 := by norm_num
  unfold conversionPotential
  constructor
  · nlinarith
  · nlinarith

theorem profitability_bounds {rows : List Row} (hne : rows ≠ [])
    (hprof : ∀ r ∈ rows, 0 ≤ r.profitability_score ∧ r.profitability_score ≤ 1)
    (haov : ∀ r ∈ rows, 0 ≤ r.avg_order_value) :
    0 ≤ profitabilityDim rows ∧ profitabilityDim rows ≤ 1 := by
  have hmapne : rows.map (·.profitability_score) ≠ [] := by
    simpa using hne
  have h1 : 0 ≤ avgProfitability rows := by
    apply mean_nonneg
    intro x hx
    obtain ⟨r, hr, rfl⟩ := List.mem_map.mp hx
    exact (hprof r hr).1
  have h2 : avgProfitability rows ≤ 1 := by
    apply mean_le_one hmapne
    intro x hx
    obtain ⟨r, hr, rfl⟩ := List.mem_map.mp hx
    exact (hprof r hr).2
  have h3 : 0 ≤ avgAov rows := by
    apply mean_nonneg
    intro x hx
    obtain ⟨r, hr, rfl⟩ := List.mem_map.mp hx
    exact haov r hr
  have h4 : 0 ≤ min (avgAov rows / 1000) 1.0 := by
    apply le_min (by positivity)
    norm_num
  have h5 : min (avgAov rows / 1000) 1.0 ≤ 1 := by
    calc min (avgAov rows / 1000) 1.0 ≤ 1.0 := min_le_right _ _
      _ ≤ 1 := by norm_num
  unfold profitabilityDim
  constructor
  · nlinarith
  · nlinarith

theorem sizeScore_bounds (n : ℕ) : 0 ≤ sizeScore n ∧ sizeScore n ≤ 1 := by
  unfold sizeScore
  by_cases h : n ≤ 5000
  · rw [if_pos h]
    constructor
    · positivity
    · rw [div_le_one (by norm_num)]
      exact_mod_cast h
  · rw [if_neg h]
    have h5 : (5000 : ℚ) ≤ (n : ℚ) := by
      exact_mod_cast Nat.le_of_lt (Nat.lt_of_not_le h)
    constructor
    · calc (0 : ℚ) ≤ 0.5 := by norm_num
        _ ≤ max 0.5 (1 - ((n : ℚ) - 5000) / 20000) := le_max_left _ _
    · apply max_le (by norm_num)
      have : 0 ≤ ((n : ℚ) - 5000) / 20000 := by
        apply div_nonneg (by linarith) (by norm_num)
      linarith

theorem strategicFit_bounds (name : String) :
    0 ≤ strategicFit name ∧ strategicFit name ≤ 1 := by
  unfold strategicFit
  split_ifs <;> norm_num

theorem baseLift_nonneg {rows : List Row}
    (heng : ∀ r ∈ rows, 0 ≤ r.engagement_score)
    (haov : ∀ r ∈ rows, 0 ≤ r.avg_order_value) : 0 ≤ baseLift rows := by
  have h1 : 0 ≤ avgEngagement rows := by
    apply mean_nonneg
    intro x hx
    obtain ⟨r, hr, rfl⟩ := List.mem_map.mp hx
    exact heng r hr
  have h3 : 0 ≤ avgAov rows := by
    apply mean_nonneg
    intro x hx
    obtain ⟨r, hr, rfl⟩ := List.mem_map.mp hx
    exact haov r hr
  have h4 : 0 ≤ min (avgAov rows / 2000) 1.0 := by
    apply le_min (by positivity)
    norm_num
  unfold baseLift
  nlinarith

theorem lift_le_one (rows : List Row) (noise : ℚ) :
    liftVsControl rows noise ≤ 1 := by
  unfold liftVsControl
  calc min (baseLift rows + noise) 1.0 ≤ 1.0 := min_le_right _ _
    _ ≤ 1 := by norm_num

theorem overall_bounds {c p l f s : ℚ}
    (hc : 0 ≤ c ∧ c ≤ 1) (hp : 0 ≤ p ∧ p ≤ 1) (hl : 0 ≤ l ∧ l ≤ 1)
    (hf : 0 ≤ f ∧ f ≤ 1) (hs : 0 ≤ s ∧ s ≤ 1) :
    0 ≤ overallScore c p l f s ∧ overallScore c p l f s ≤ 1 := by
  unfold overallScore
  obtain ⟨hc0, hc1⟩ := hc
  obtain ⟨hp0, hp1⟩ := hp
  obtain ⟨hl0, hl1⟩ := hl
  obtain ⟨hf0, hf1⟩ := hf
  obtain ⟨hs0, hs1⟩ := hs
  constructor <;> nlinarith

/-! ## Score formulas (code-side definitions match the spec formulas) -/

theorem conversion_formula (rows : List Row) :
    conversionPotential rows =
      0.7 * mean (rows.map (·.engagement_score)) +
        0.3 * min (mean (rows.map (·.sessions_last_30d)) / 10) 1.0 := by
  unfold conversionPotential avgEngagement recencyFactor avgSessions
  ring

theorem profitability_formula (rows : List Row) :
    profitabilityDim rows =
      0.8 * mean (rows.map (·.profitability_score)) +
        0.2 * min (mean (rows.map (·.avg_order_value)) / 1000) 1.0 := by
  unfold profitabilityDim avgProfitability avgAov
  ring

theorem overall_formula (c p l f s : ℚ) :
    overallScore c p l f s = 0.25 * c + 0.25 * p + 0.20 * l + 0.20 * f + 0.10 * s := by
  unfold overallScore
  ring

/-! ## Validation-report lemmas -/

theorem validateAux_ok (df : List Row) (segs : List Segment) :
    ∀ (acc : Finset String) (tot : ℕ) (ws : List String),
      (validateAux df segs acc tot ws).exhaustive_ok =
        decide ((acc ∪ unionUsers df segs).card = df.length) := by
  induction segs with
  | nil =>
    intro acc tot ws
    simp [validateAux, unionUsers]
  | cons s rest ih =>
    intro acc tot ws
    rw [validateAux, ih]
    simp [unionUsers, Finset.union_assoc]

theorem validateAux_warnings (df : List Row) (segs : List Segment) :
    ∀ (acc : Finset String) (tot : ℕ) (ws : List String),
      ((validateAux df segs acc tot ws).warnings = [] ↔
        (ws = [] ∧ ChainOk df acc segs)) := by
  induction segs with
  | nil =>
    intro acc tot ws
    simp [validateAux, ChainOk]
  | cons s rest ih =>
    intro acc tot ws
    rw [validateAux, ih]
    by_cases hov : acc ∩ segUsers df s = ∅
    · rw [if_pos hov]
      rw [ChainOk]
      tauto
    · rw [if_neg hov]
      rw [ChainOk]
      simp
      tauto

/-- The chained prefix-union overlap check of `_validate_mece` is
equivalent to pairwise disjointness of the member sets. -/
theorem chainOk_iff (df : List Row) (segs : List Segment) :
    ∀ acc : Finset String,
      ChainOk df acc segs ↔
        ((∀ s ∈ segs, acc ∩ segUsers df s = ∅) ∧
          List.Pairwise (fun a b => segUsers df a ∩ segUsers df b = ∅) segs) := by
  induction segs with
  | nil =>
    intro acc
    simp [ChainOk]
  | cons s rest ih =>
    intro acc
    rw [ChainOk, ih, List.pairwise_cons]
    constructor
    · rintro ⟨h1, h2, h3⟩
      refine ⟨?_, ?_, h3⟩
      · intro t ht
        rcases List.mem_cons.mp ht with rfl | ht'
        · exact h1
        · have := h2 t ht'
          rw [Finset.union_inter_distrib_right, Finset.union_eq_empty] at this
          exact this.1
      · intro t ht'
        have := h2 t ht'
        rw [Finset.union_inter_distrib_right, Finset.union_eq_empty] at this
        exact this.2
    · rintro ⟨h1, h2, h3⟩
      refine ⟨h1 s (List.mem_cons_self _ _), ?_, h3⟩
      intro t ht'
      rw [Finset.union_inter_distrib_right, Finset.union_eq_empty]
      exact ⟨h1 t (List.mem_cons_of_mem _ ht'), h2 t ht'⟩

theorem instant_toDatetime (d : DateVal) : (toDatetime d).instant = d.instant := by
  cases d <;> rfl


/-! ## Claim theorems -/

/-- Claim C1 (refuted at a failing input, exposing a code bug): the MECE
invariant does not hold for every universe and `min_segment_size`.  On the
one-row universe `[r0]` with `min_segment_size = 500`, rule 1 matches the
only user `u1` but is skipped for being undersized, and because
`remaining_mask = ~s1_mask` is assigned outside rule 1's size check, `u1`
is dropped from the remaining set anyway: the union of all produced
segment member sets is empty, while the universe's member set is
`{u1}` — the partition is not collectively exhaustive. -/
theorem claim_C1 : unionUsers [r0] (create_mece_segments [r0] 500 0) = ∅ ∧
    ([r0].map (·.user_id)).toFinset = {"u1"} :=
  ⟨union_r0_empty, by simp [r0]⟩

/-- Claim C2 (refuted at a failing input, exposing a code bug): the
fold-forward policy fails for rule 1.  On `[r0]` with
`min_segment_size = 500`, rule 1's matched subset has size 1 (below the
threshold, so the rule is skipped and no `High_AOV_Premium` segment
appears), yet its matched member does NOT stay in the remaining set: the
remaining set right after rule 1 is already empty, and the run's only
segment is an empty catch-all. -/
theorem claim_C2 : s1_len [r0] = 1 ∧ ¬ (500 ≤ s1_len [r0]) ∧
    memberIds [r0] (remaining1 [r0]) = [] ∧
    (create_mece_segments [r0] 500 0).map (fun s => s.name) = ["Other_Bucket"] := by
  refine ⟨s1_len_r0, by rw [s1_len_r0]; norm_num, ?_, ?_⟩
  · simp [memberIds, List.filter, remaining1_r0]
  · rw [create_r0_eq]
    rfl

/-- Claim C3, corrected: the post-partition validation step only reports —
it never raises and never halts.  Its exhaustiveness flag is true exactly
when the union of the member sets has the universe's cardinality, its
overlap warnings are empty exactly when the member sets are pairwise
disjoint, and `create_mece_segments` returns its segment list regardless
of the report (there is no `MeceViolationError` anywhere in the code). -/
theorem claim_C3 (df : List Row) (segs : List Segment) (m : ℕ) (now : ℤ) :
    (create_and_validate df m now).1 = create_mece_segments df m now ∧
    ((validate_mece df segs).exhaustive_ok = true ↔
      (unionUsers df segs).card = df.length) ∧
    ((validate_mece df segs).warnings = [] ↔
      List.Pairwise (fun a b => segUsers df a ∩ segUsers df b = ∅) segs) := by
  refine ⟨rfl, ?_, ?_⟩
  · rw [validate_mece, validateAux_ok]
    simp
  · rw [validate_mece, validateAux_warnings, chainOk_iff]
    simp

/-- Claim C3 counterexample: a run whose validation detects incomplete
coverage (the exhaustiveness flag is false — the source merely prints an
ERROR line) while the pipeline still completes and returns its segment
list, contradicting the claim that such a violation raises
`MeceViolationError` and halts. -/
theorem claim_C3_counterexample :
    (validate_mece [r0] (create_mece_segments [r0] 500 0)).exhaustive_ok = false ∧
    (create_and_validate [r0] 500 0).1.map (fun s => (s.name, s.size)) =
      [("Other_Bucket", 0)] := by
  constructor
  · rw [create_r0_eq]
    simp [validate_mece, validateAux, segUsers, memberIds, List.filter,
      remaining5_r0]
  · exact create_r0_names

/-- Claim C4 (refuted at a failing input, exposing a code bug): the
catch-all is produced, but its member set is NOT always
`Universe − ⋃(materialized explicit segments)`.  On `[r0]` with
`min_segment_size = 500` no explicit segment is materialized, so that
difference is `{u1}`, yet the catch-all's member set is empty — rule 1's
undersized matched row was excluded from the catch-all as well. -/
theorem claim_C4 :
    (create_mece_segments [r0] 500 0).map (fun s => (s.name, memberIds [r0] s.mask)) =
      [("Other_Bucket", [])] ∧
    ([r0].map (·.user_id)).toFinset \
      unionUsers [r0] ((create_mece_segments [r0] 500 0).filter
        (fun s => ! (s.name == "Other_Bucket"))) = {"u1"} := by
  constructor
  · rw [create_r0_eq]
    simp [memberIds, List.filter, remaining5_r0]
  · rw [create_r0_eq]
    simp [unionUsers, List.filter, r0]

/-- Claim C5, corrected: partitioning an empty universe raises nothing
(no `EmptyUniverseError` exists in the code); for every positive
`min_segment_size` it silently produces exactly one segment — the empty
catch-all `Other_Bucket`. -/
theorem claim_C5 (m : ℕ) (hm : 0 < m) (now : ℤ) :
    (create_mece_segments [] m now).map (fun s => (s.name, s.size)) =
      [("Other_Bucket", 0)] := by
  simp [create_mece_segments, s1_len, s2_len, s3_len, s4_len, s5_len,
    Nat.le_zero, Nat.pos_iff_ne_zero.mp hm]

/-- Witness for claim C5 at the default `min_segment_size = 500`. -/
theorem claim_C5_witness : 0 < 500 ∧
    (create_mece_segments [] 500 0).map (fun s => (s.name, s.size)) =
      [("Other_Bucket", 0)] :=
  ⟨by norm_num, claim_C5 500 (by norm_num) 0⟩

/-- Claim C5 counterexample: at the default configuration the empty
universe yields a single empty catch-all segment — the embedding is a
total function, so no error is raised — contradicting the claim that an
`EmptyUniverseError` is raised and no segment is produced. -/
theorem claim_C5_counterexample :
    (create_mece_segments [] 500 0).map (fun s => (s.name, s.size)) =
      [("Other_Bucket", 0)] := by
  simp [create_mece_segments, s1_len, s2_len, s3_len, s4_len, s5_len]

/-- Claim C6, corrected: for inputs in the documented domains, conversion
potential, profitability, size score and strategic fit all lie in [0,1],
and lift never exceeds 1; but the normal noise term is unbounded below,
so lift is only guaranteed non-negative (and the overall score only
guaranteed in [0,1]) when the draw is non-negative. -/
theorem claim_C6 {rows : List Row} (hne : rows ≠ [])
    (hdom : ∀ r ∈ rows, rowDomOk r) (name : String) (noise : ℚ) :
    (0 ≤ conversionPotential rows ∧ conversionPotential rows ≤ 1) ∧
    (0 ≤ profitabilityDim rows ∧ profitabilityDim rows ≤ 1) ∧
    (0 ≤ sizeScore rows.length ∧ sizeScore rows.length ≤ 1) ∧
    (0 ≤ strategicFit name ∧ strategicFit name ≤ 1) ∧
    liftVsControl rows noise ≤ 1 ∧
    (0 ≤ noise →
      (0 ≤ liftVsControl rows noise ∧ liftVsControl rows noise ≤ 1) ∧
      (0 ≤ overallScore (conversionPotential rows) (profitabilityDim rows)
          (liftVsControl rows noise) (strategicFit name) (sizeScore rows.length) ∧
        overallScore (conversionPotential rows) (profitabilityDim rows)
          (liftVsControl rows noise) (strategicFit name) (sizeScore rows.length) ≤ 1)) := by
  have hc := conversion_bounds hne (fun r hr => (hdom r hr).2.1)
    (fun r hr => (hdom r hr).2.2.2)
  have hp := profitability_bounds hne (fun r hr => (hdom r hr).2.2.1)
    (fun r hr => (hdom r hr).1)
  have hs := sizeScore_bounds rows.length
  have hf := strategicFit_bounds name
  have hl1 := lift_le_one rows noise
  refine ⟨hc, hp, hs, hf, hl1, fun hnz => ?_⟩
  have hb := baseLift_nonneg (fun r hr => (hdom r hr).2.1.1)
    (fun r hr => (hdom r hr).1)
  have hl0 : 0 ≤ liftVsControl rows noise := by
    unfold liftVsControl
    apply le_min (by linarith)
    norm_num
  exact ⟨⟨hl0, hl1⟩, overall_bounds hc hp ⟨hl0, hl1⟩ hf hs⟩

/-- Witness for claim C6 at the concrete segment `[r0]` with zero noise. -/
theorem claim_C6_witness : (([r0] : List Row) ≠ [] ∧ ∀ r ∈ [r0], rowDomOk r) ∧
    liftVsControl [r0] 0 ≤ 1 := by
  have hne : ([r0] : List Row) ≠ [] := by simp
  exact ⟨⟨hne, r0_dom⟩, (claim_C6 hne r0_dom "X" 0).2.2.2.2.1⟩

/-- Claim C6 counterexample: a non-empty segment within all documented
domains on which a noise draw of −1 makes the lift sub-score negative —
so not every sub-score stays in [0,1] for all values of the noise term. -/
theorem claim_C6_counterexample : ([r0] : List Row) ≠ [] ∧
    (∀ r ∈ [r0], rowDomOk r) ∧ liftVsControl [r0] (-1) < 0 :=
  ⟨by simp, r0_dom, lift_r0_neg⟩

/-- Claim C7, confirmed: every scored segment's stored conversion
potential, profitability and overall score are (up to the 3-decimal
rounding the source applies when storing) exactly the spec's formulas —
conversion = 0.7·mean(engagement) + 0.3·min(mean(sessions)/10, 1.0),
profitability = 0.8·mean(profitability) + 0.2·min(mean(AOV)/1000, 1.0),
overall = 0.25·conversion + 0.25·profitability + 0.20·lift +
0.20·strategic_fit + 0.10·size_score — with the weights summing to 1. -/
theorem claim_C7 (df : List Row) (segs : List Segment) (mn mx : ℕ)
    (noise : ℕ → ℚ) (s : ScoredSegment)
    (hs : s ∈ compute_segment_scores df segs mn mx noise) :
    (0.25 + 0.25 + 0.20 + 0.20 + 0.10 : ℚ) = 1 ∧
    ∃ seg ∈ segs, ∃ nz : ℚ,
      s.conversion_potential =
        round3 (0.7 * mean ((df.filter seg.mask).map (·.engagement_score)) +
          0.3 * min (mean ((df.filter seg.mask).map (·.sessions_last_30d)) / 10) 1.0) ∧
      s.profitability =
        round3 (0.8 * mean ((df.filter seg.mask).map (·.profitability_score)) +
          0.2 * min (mean ((df.filter seg.mask).map (·.avg_order_value)) / 1000) 1.0) ∧
      s.overall_score =
        round3 (0.25 * conversionPotential (df.filter seg.mask) +
          0.25 * profitabilityDim (df.filter seg.mask) +
          0.20 * liftVsControl (df.filter seg.mask) nz +
          0.20 * strategicFit seg.name +
          0.10 * sizeScore (df.filter seg.mask).length) := by
  refine ⟨by norm_num, ?_⟩
  rw [compute_segment_scores, mem_sortByScore] at hs
  obtain ⟨seg, hseg, j, rfl, hz⟩ := scoreLoop_mem hs
  refine ⟨seg, hseg, noise j, ?_, ?_, ?_⟩
  · show round3 (conversionPotential (df.filter seg.mask)) = _
    exact congrArg round3 (conversion_formula _)
  · show round3 (profitabilityDim (df.filter seg.mask)) = _
    exact congrArg round3 (profitability_formula _)
  · show round3 (overallScore _ _ _ _ _) = _
    exact congrArg round3 (overall_formula _ _ _ _ _)

/-- Witness for claim C7 on the concrete scoring run over `[r0]`. -/
theorem claim_C7_witness : (0.25 + 0.25 + 0.20 + 0.20 + 0.10 : ℚ) = 1 ∧
    ∃ seg ∈ [segX], ∃ nz : ℚ,
      c9s.conversion_potential =
        round3 (0.7 * mean (([r0].filter seg.mask).map (·.engagement_score)) +
          0.3 * min (mean (([r0].filter seg.mask).map (·.sessions_last_30d)) / 10) 1.0) ∧
      c9s.profitability =
        round3 (0.8 * mean (([r0].filter seg.mask).map (·.profitability_score)) +
          0.2 * min (mean (([r0].filter seg.mask).map (·.avg_order_value)) / 1000) 1.0) ∧
      c9s.overall_score =
        round3 (0.25 * conversionPotential ([r0].filter seg.mask) +
          0.25 * profitabilityDim ([r0].filter seg.mask) +
          0.20 * liftVsControl ([r0].filter seg.mask) nz +
          0.20 * strategicFit seg.name +
          0.10 * sizeScore ([r0].filter seg.mask).length) :=
  claim_C7 [r0] [segX] 0 10 nzf c9s c9s_mem

/-- Claim C8, corrected: `define_universe` does mutate the caller's input —
it converts every record's `cart_abandoned_date` to datetime in place —
but that conversion preserves the denoted instant and every other field,
and the universe it returns is a fresh filtered copy of the converted
frame. -/
theorem claim_C8 (df : List Row) (now : ℤ) :
    (define_universe df now).1.map stripDate = df.map stripDate ∧
    (define_universe df now).1.map (fun r => r.cart_abandoned_date.instant) =
      df.map (fun r => r.cart_abandoned_date.instant) ∧
    (define_universe df now).2 = (define_universe df now).1.filter
      (fun r => decide (now - 7 ≤ r.cart_abandoned_date.instant)) := by
  refine ⟨?_, ?_, rfl⟩
  · rw [show (define_universe df now).1 = df.map (fun r =>
      { r with cart_abandoned_date := toDatetime r.cart_abandoned_date }) from rfl]
    rw [List.map_map]
    rfl
  · rw [show (define_universe df now).1 = df.map (fun r =>
      { r with cart_abandoned_date := toDatetime r.cart_abandoned_date }) from rfl]
    rw [List.map_map]
    induction df with
    | nil => rfl
    | cons a l ih =>
      simp only [List.map_cons, Function.comp]
      rw [instant_toDatetime]
      simpa using ih

/-- Claim C8 counterexample: on an input whose abandonment date is still
in raw form, the caller-visible frame after `define_universe` differs
from the input — the claimed absence of mutation is false. -/
theorem claim_C8_counterexample : (define_universe [r8] 0).1 ≠ [r8] := by
  simp [define_universe, toDatetime, r8]

/-- Claim C9, confirmed: every scored segment in the scorer's output has a
strictly positive member count and corresponds to an input segment whose
matched subset is non-empty — zero-member segments are skipped before any
mean is taken, so no division by zero can occur. -/
theorem claim_C9 (df : List Row) (segs : List Segment) (mn mx : ℕ)
    (noise : ℕ → ℚ) (s : ScoredSegment)
    (hs : s ∈ compute_segment_scores df segs mn mx noise) :
    0 < s.size ∧ ∃ seg ∈ segs, s.segment_name = seg.name ∧
      s.size = (df.filter seg.mask).length := by
  rw [compute_segment_scores, mem_sortByScore] at hs
  obtain ⟨seg, hseg, j, rfl, hz⟩ := scoreLoop_mem hs
  exact ⟨Nat.pos_of_ne_zero hz, seg, hseg, rfl, rfl⟩

/-- Witness for claim C9 on the concrete scoring run over `[r0]`. -/
theorem claim_C9_witness : 0 < c9s.size :=
  (claim_C9 [r0] [segX] 0 10 nzf c9s c9s_mem).1

/-- Claim C10, confirmed: every segment other than the catch-all
`Other_Bucket` is materialized only when its matched subset reached
`min_segment_size`, and its recorded size is that subset's size. -/
theorem claim_C10 (df : List Row) (m : ℕ) (now : ℤ) (seg : Segment)
    (hmem : seg ∈ create_mece_segments df m now)
    (hname : seg.name ≠ "Other_Bucket") :
    m ≤ seg.size ∧ seg.size = (df.filter seg.mask).length := by
  simp only [create_mece_segments, List.mem_append, List.mem_singleton] at hmem
  rcases hmem with ((((h1 | h2) | h3) | h4) | h5) | h6
  · obtain ⟨hc, rfl⟩ := mem_if_singleton h1
    exact ⟨hc, rfl⟩
  · obtain ⟨hc, rfl⟩ := mem_if_singleton h2
    exact ⟨hc, rfl⟩
  · obtain ⟨hc, rfl⟩ := mem_if_singleton h3
    exact ⟨hc, rfl⟩
  · obtain ⟨hc, rfl⟩ := mem_if_singleton h4
    exact ⟨hc, rfl⟩
  · obtain ⟨hc, rfl⟩ := mem_if_singleton h5
    exact ⟨hc, rfl⟩
  · subst h6
    simp at hname

/-- Witness for claim C10: on `[r0]` with `min_segment_size = 1` the rule 1
segment is materialized with size 1 ≥ 1. -/
theorem claim_C10_witness : c10seg.name ≠ "Other_Bucket" ∧ 1 ≤ c10seg.size ∧
    c10seg.size = ([r0].filter c10seg.mask).length := by
  have h := claim_C10 [r0] 1 0 c10seg c10seg_mem (by simp [c10seg])
  exact ⟨by simp [c10seg], h.1, h.2⟩

end MeceSeg
